import Mathlib

/-!
Verification of the IceBottle thermal simulation core (`src/main.rs`).

The physical quantities are modelled over `ℚ` (exact arithmetic standing in
for the Rust `f32` values). Every definition below is a direct translation of
the corresponding block of `src/main.rs`: the state record `SystemState`, the
pure query `system_temperature_equivalent`, the simulator record `Simulation`
with its seeding operation `reset_from_init`, the inline apply-initial-
conditions block of the main loop, and the staged heat update `step`.
-/

namespace IceBottle

/-- `CP_WATER` from `main.rs`: specific heat of water, J/(kg*K). -/
def CP_WATER : ℚ := 4186

/-- `CP_ICE` from `main.rs`: specific heat of ice, J/(kg*K). -/
def CP_ICE : ℚ := 2100

/-- `LATENT_FUSION` from `main.rs`: latent heat of fusion, J/kg. -/
def LATENT_FUSION : ℚ := 334000

/-- `U_EFFECTIVE` from `main.rs`: overall heat transfer coefficient. -/
def U_EFFECTIVE : ℚ := 5

/-- The `1e-9` epsilon guarding the division in `system_temperature_equivalent`. -/
def CEFF_EPS : ℚ := 1 / 1000000000

/-- The `1e-3` tolerance on `temp_water` in the freezing stage of `step`. -/
def FREEZE_TOL : ℚ := 1 / 1000

/-- `SystemState` from `main.rs`: masses and temperatures of the contents. -/
structure SystemState where
  mass_water : ℚ
  mass_ice : ℚ
  mass_air : ℚ
  temp_water : ℚ
  temp_ice : ℚ
deriving DecidableEq

/-- `SystemState::system_temperature_equivalent`: sensible-heat weighted
temperature, with the `1e-9` guard against dividing by a near-zero
effective heat capacity. -/
def SystemState.system_temperature_equivalent (s : SystemState) : ℚ :=
  let sensible_ice := s.mass_ice * CP_ICE * s.temp_ice
  let sensible_water := s.mass_water * CP_WATER * s.temp_water
  let c_eff := s.mass_ice * CP_ICE + s.mass_water * CP_WATER
  if |c_eff| < CEFF_EPS then 0 else (sensible_ice + sensible_water) / c_eff

/-- `Simulation` from `main.rs`: owned state, environment, clock and the
GUI-editable initial-condition fields. -/
structure Simulation where
  state : SystemState
  outside_temp : ℚ
  time_seconds : ℚ
  running : Bool
  time_scale : ℚ
  init_water : ℚ
  init_ice : ℚ
  init_air : ℚ
  init_system_temp : ℚ
  init_outside_temp : ℚ
deriving DecidableEq

/-- `Simulation::new`: default initial conditions, paused, time 0. -/
def Simulation.new : Simulation :=
  { state :=
      { mass_water := 1/2, mass_ice := 1/10, mass_air := 1/50,
        temp_water := 5, temp_ice := min 5 0 }
    outside_temp := 25
    time_seconds := 0
    running := false
    time_scale := 1
    init_water := 1/2, init_ice := 1/10, init_air := 1/50
    init_system_temp := 5, init_outside_temp := 25 }

/-- `Simulation::reset_from_init`: reseed the state from the `init_*` fields,
zero the clock, pause, and reset the time scale. -/
def Simulation.reset_from_init (sim : Simulation) : Simulation :=
  { sim with
    state :=
      { mass_water := sim.init_water
        mass_ice := sim.init_ice
        mass_air := sim.init_air
        temp_water := sim.init_system_temp
        temp_ice := min sim.init_system_temp 0 }
    outside_temp := sim.init_outside_temp
    time_seconds := 0
    running := false
    time_scale := 1 }

/-- The apply-initial-conditions block of the main loop (run on Enter or the
Start button while paused): overwrite the state and `outside_temp` from the
`init_*` fields, leaving clock, run flag and time scale alone. -/
def Simulation.apply_initial_conditions (sim : Simulation) : Simulation :=
  { sim with
    state :=
      { mass_water := sim.init_water
        mass_ice := sim.init_ice
        mass_air := sim.init_air
        temp_water := sim.init_system_temp
        temp_ice := min sim.init_system_temp 0 }
    outside_temp := sim.init_outside_temp }

/-- Heating stage 1 of `step` (`// 1) warm ice to 0°C`): spend heat `q`
warming the ice toward 0 °C; returns the updated state and remaining heat. -/
def warmIce (s : SystemState) (q : ℚ) : SystemState × ℚ :=
  if 0 < s.mass_ice ∧ s.temp_ice < 0 then
    let need := s.mass_ice * CP_ICE * (0 - s.temp_ice)
    if need ≤ q then ({ s with temp_ice := 0 }, q - need)
    else ({ s with temp_ice := s.temp_ice + q / (s.mass_ice * CP_ICE) }, 0)
  else (s, q)

/-- Heating stage 2 of `step` (`// 2) melt ice at 0°C`): melt
`min (q / L) mass_ice` kilograms, moving the mass from ice to water. -/
def meltIce (s : SystemState) (q : ℚ) : SystemState × ℚ :=
  if 0 < q ∧ 0 < s.mass_ice then
    let can_melt := q / LATENT_FUSION
    let melt_mass := min can_melt s.mass_ice
    ({ s with
        mass_ice := s.mass_ice - melt_mass
        mass_water := s.mass_water + melt_mass },
      q - melt_mass * LATENT_FUSION)
  else (s, q)

/-- Heating stage 3 of `step` (`// 3) raise water temperature`). -/
def heatWater (s : SystemState) (q : ℚ) : SystemState :=
  if 0 < q ∧ 0 < s.mass_water then
    { s with temp_water := s.temp_water + q / (s.mass_water * CP_WATER) }
  else s

/-- The whole `q > 0` branch of `step`: warm ice, melt ice, heat water. -/
def heating (s : SystemState) (q : ℚ) : SystemState :=
  let p1 := warmIce s q
  let p2 := meltIce p1.1 p1.2
  heatWater p2.1 p2.2

/-- Cooling stage 1 of `step` (`// 1) cool water to 0°C`): remove up to
`mass_water * CP_WATER * temp_water` joules from the water. -/
def coolWater (s : SystemState) (q_abs : ℚ) : SystemState × ℚ :=
  if 0 < s.mass_water ∧ 0 < s.temp_water then
    let need := s.mass_water * CP_WATER * (s.temp_water - 0)
    let take := min need q_abs
    ({ s with temp_water := s.temp_water - take / (s.mass_water * CP_WATER) },
      q_abs - take)
  else (s, q_abs)

/-- Cooling stage 2 of `step` (`// 2) freeze some water at 0°C`): only when
water is present and `temp_water` is within `1e-3` of 0. -/
def freezeWater (s : SystemState) (q_abs : ℚ) : SystemState × ℚ :=
  if 0 < q_abs ∧ 0 < s.mass_water ∧ |s.temp_water - 0| < FREEZE_TOL then
    let freeze_mass := min (q_abs / LATENT_FUSION) s.mass_water
    ({ s with
        mass_water := s.mass_water - freeze_mass
        mass_ice := s.mass_ice + freeze_mass },
      q_abs - freeze_mass * LATENT_FUSION)
  else (s, q_abs)

/-- Cooling stage 3 of `step` (`// 3) lower ice temperature`). -/
def coolIce (s : SystemState) (q_abs : ℚ) : SystemState :=
  if 0 < q_abs ∧ 0 < s.mass_ice then
    { s with temp_ice := s.temp_ice - q_abs / (s.mass_ice * CP_ICE) }
  else s

/-- The whole `q < 0` branch of `step` (on `q_abs = -q`): cool water, freeze,
cool ice. -/
def cooling (s : SystemState) (q_abs : ℚ) : SystemState :=
  let p1 := coolWater s q_abs
  let p2 := freezeWater p1.1 p1.2
  coolIce p2.1 p2.2

/-- The final clamp of `step` (`// Ensure temp bounds and mass sanity`):
force `temp_ice ≤ 0` when ice is present, else `temp_ice = 0`; force
`temp_water ≥ 0` when water is present, else `temp_water = 0`. -/
def clampTemps (s : SystemState) : SystemState :=
  { s with
    temp_ice := if 0 < s.mass_ice then min s.temp_ice 0 else 0
    temp_water := if 0 < s.mass_water then max s.temp_water 0 else 0 }

/-- The heat delivered during one `step sim dt` call:
`q = U_EFFECTIVE * (outside_temp - sys_temp) * (dt * time_scale)`. -/
def Simulation.heat_q (sim : Simulation) (dt : ℚ) : ℚ :=
  let dts := dt * sim.time_scale
  let sys_temp := sim.state.system_temperature_equivalent
  let q_dot := U_EFFECTIVE * (sim.outside_temp - sys_temp)
  q_dot * dts

/-- `Simulation::step`: early return when paused; otherwise scale `dt`,
compute the heat `q`, run the heating or cooling ladder, clamp the
temperatures and advance the clock. -/
def Simulation.step (sim : Simulation) (dt : ℚ) : Simulation :=
  if ¬ sim.running then sim
  else
    let dts := dt * sim.time_scale
    let q := sim.heat_q dt
    let s :=
      if 0 < q then heating sim.state q
      else if q < 0 then cooling sim.state (-q)
      else sim.state
    { sim with
      state := clampTemps s
      time_seconds := sim.time_seconds + dts }

/-- The spec's temperature invariants (§3, invariants 2 and 3). -/
def tempInvariants (s : SystemState) : Prop :=
  (0 < s.mass_ice → s.temp_ice ≤ 0) ∧ (s.mass_ice = 0 → s.temp_ice = 0) ∧
  (0 < s.mass_water → 0 ≤ s.temp_water) ∧ (s.mass_water = 0 → s.temp_water = 0)

/-- A physically valid state: non-negative masses (§3, invariant 1) together
with the temperature invariants. -/
def validState (s : SystemState) : Prop :=
  0 ≤ s.mass_water ∧ 0 ≤ s.mass_ice ∧ 0 ≤ s.mass_air ∧ tempInvariants s

instance (s : SystemState) : Decidable (tempInvariants s) := by
  unfold tempInvariants; infer_instance

instance (s : SystemState) : Decidable (validState s) := by
  unfold validState; infer_instance

/-! ### Helper lemmas about the individual stages -/

theorem warmIce_mass_water (s : SystemState) (q : ℚ) :
    (warmIce s q).1.mass_water = s.mass_water := by
  unfold warmIce; dsimp only; split_ifs <;> rfl

theorem warmIce_mass_ice (s : SystemState) (q : ℚ) :
    (warmIce s q).1.mass_ice = s.mass_ice := by
  unfold warmIce; dsimp only; split_ifs <;> rfl

theorem warmIce_mass_air (s : SystemState) (q : ℚ) :
    (warmIce s q).1.mass_air = s.mass_air := by
  unfold warmIce; dsimp only; split_ifs <;> rfl

theorem warmIce_temp_water (s : SystemState) (q : ℚ) :
    (warmIce s q).1.temp_water = s.temp_water := by
  unfold warmIce; dsimp only; split_ifs <;> rfl

theorem meltIce_mass_sum (s : SystemState) (q : ℚ) :
    (meltIce s q).1.mass_water + (meltIce s q).1.mass_ice
      = s.mass_water + s.mass_ice := by
  unfold meltIce; dsimp only; split_ifs <;> simp

theorem meltIce_mass_air (s : SystemState) (q : ℚ) :
    (meltIce s q).1.mass_air = s.mass_air := by
  unfold meltIce; dsimp only; split_ifs <;> rfl

theorem meltIce_temp_water (s : SystemState) (q : ℚ) :
    (meltIce s q).1.temp_water = s.temp_water := by
  unfold meltIce; dsimp only; split_ifs <;> rfl

theorem meltIce_temp_ice (s : SystemState) (q : ℚ) :
    (meltIce s q).1.temp_ice = s.temp_ice := by
  unfold meltIce; dsimp only; split_ifs <;> rfl

theorem heatWater_mass_water (s : SystemState) (q : ℚ) :
    (heatWater s q).mass_water = s.mass_water := by
  unfold heatWater; split_ifs <;> rfl

theorem heatWater_mass_ice (s : SystemState) (q : ℚ) :
    (heatWater s q).mass_ice = s.mass_ice := by
  unfold heatWater; split_ifs <;> rfl

theorem heatWater_mass_air (s : SystemState) (q : ℚ) :
    (heatWater s q).mass_air = s.mass_air := by
  unfold heatWater; split_ifs <;> rfl

theorem heatWater_temp_ice (s : SystemState) (q : ℚ) :
    (heatWater s q).temp_ice = s.temp_ice := by
  unfold heatWater; split_ifs <;> rfl

theorem coolWater_mass_water (s : SystemState) (q : ℚ) :
    (coolWater s q).1.mass_water = s.mass_water := by
  unfold coolWater; dsimp only; split_ifs <;> rfl

theorem coolWater_mass_ice (s : SystemState) (q : ℚ) :
    (coolWater s q).1.mass_ice = s.mass_ice := by
  unfold coolWater; dsimp only; split_ifs <;> rfl

theorem coolWater_mass_air (s : SystemState) (q : ℚ) :
    (coolWater s q).1.mass_air = s.mass_air := by
  unfold coolWater; dsimp only; split_ifs <;> rfl

theorem coolWater_temp_ice (s : SystemState) (q : ℚ) :
    (coolWater s q).1.temp_ice = s.temp_ice := by
  unfold coolWater; dsimp only; split_ifs <;> rfl

theorem freezeWater_mass_sum (s : SystemState) (q : ℚ) :
    (freezeWater s q).1.mass_water + (freezeWater s q).1.mass_ice
      = s.mass_water + s.mass_ice := by
  unfold freezeWater; dsimp only; split_ifs <;> simp

theorem freezeWater_mass_air (s : SystemState) (q : ℚ) :
    (freezeWater s q).1.mass_air = s.mass_air := by
  unfold freezeWater; dsimp only; split_ifs <;> rfl

theorem freezeWater_temp_water (s : SystemState) (q : ℚ) :
    (freezeWater s q).1.temp_water = s.temp_water := by
  unfold freezeWater; dsimp only; split_ifs <;> rfl

theorem freezeWater_temp_ice (s : SystemState) (q : ℚ) :
    (freezeWater s q).1.temp_ice = s.temp_ice := by
  unfold freezeWater; dsimp only; split_ifs <;> rfl

theorem coolIce_mass_water (s : SystemState) (q : ℚ) :
    (coolIce s q).mass_water = s.mass_water := by
  unfold coolIce; split_ifs <;> rfl

theorem coolIce_mass_ice (s : SystemState) (q : ℚ) :
    (coolIce s q).mass_ice = s.mass_ice := by
  unfold coolIce; split_ifs <;> rfl

theorem coolIce_mass_air (s : SystemState) (q : ℚ) :
    (coolIce s q).mass_air = s.mass_air := by
  unfold coolIce; split_ifs <;> rfl

theorem coolIce_temp_water (s : SystemState) (q : ℚ) :
    (coolIce s q).temp_water = s.temp_water := by
  unfold coolIce; split_ifs <;> rfl

theorem clampTemps_mass_water (s : SystemState) :
    (clampTemps s).mass_water = s.mass_water := rfl

theorem clampTemps_mass_ice (s : SystemState) :
    (clampTemps s).mass_ice = s.mass_ice := rfl

theorem clampTemps_mass_air (s : SystemState) :
    (clampTemps s).mass_air = s.mass_air := rfl

/-- The final clamp always establishes the temperature invariants. -/
theorem tempInvariants_clampTemps (s : SystemState) :
    tempInvariants (clampTemps s) := by
  unfold tempInvariants clampTemps
  dsimp only
  refine ⟨fun h => ?_, fun h => ?_, fun h => ?_, fun h => ?_⟩ <;>
    split_ifs <;> simp_all [min_le_right, le_max_right]

/-- A state already satisfying the temperature invariants is left unchanged
by the final clamp. -/
theorem clampTemps_eq_self (s : SystemState)
    (h1 : 0 < s.mass_ice → s.temp_ice ≤ 0)
    (h2 : ¬ 0 < s.mass_ice → s.temp_ice = 0)
    (h3 : 0 < s.mass_water → 0 ≤ s.temp_water)
    (h4 : ¬ 0 < s.mass_water → s.temp_water = 0) :
    clampTemps s = s := by
  obtain ⟨mw, mi, ma, tw, ti⟩ := s
  unfold clampTemps
  dsimp only at h1 h2 h3 h4 ⊢
  split_ifs with hi hw hw <;> simp_all [min_eq_left, max_eq_left]

theorem heating_mass_sum (s : SystemState) (q : ℚ) :
    (heating s q).mass_water + (heating s q).mass_ice
      = s.mass_water + s.mass_ice := by
  unfold heating
  dsimp only
  rw [heatWater_mass_water, heatWater_mass_ice, meltIce_mass_sum,
    warmIce_mass_water, warmIce_mass_ice]

theorem heating_mass_air (s : SystemState) (q : ℚ) :
    (heating s q).mass_air = s.mass_air := by
  unfold heating
  dsimp only
  rw [heatWater_mass_air, meltIce_mass_air, warmIce_mass_air]

theorem cooling_mass_sum (s : SystemState) (q : ℚ) :
    (cooling s q).mass_water + (cooling s q).mass_ice
      = s.mass_water + s.mass_ice := by
  unfold cooling
  dsimp only
  rw [coolIce_mass_water, coolIce_mass_ice, freezeWater_mass_sum,
    coolWater_mass_water, coolWater_mass_ice]

theorem cooling_mass_air (s : SystemState) (q : ℚ) :
    (cooling s q).mass_air = s.mass_air := by
  unfold cooling
  dsimp only
  rw [coolIce_mass_air, freezeWater_mass_air, coolWater_mass_air]

/-- Unfolding lemma: a running `step` clamps the heated/cooled state and
advances the clock. -/
theorem step_of_running (sim : Simulation) (dt : ℚ) (hr : sim.running = true) :
    sim.step dt =
      { sim with
        state := clampTemps
          (if 0 < sim.heat_q dt then heating sim.state (sim.heat_q dt)
           else if sim.heat_q dt < 0 then cooling sim.state (-sim.heat_q dt)
           else sim.state)
        time_seconds := sim.time_seconds + dt * sim.time_scale } := by
  simp [Simulation.step, hr]

/-- Unfolding lemma: a paused `step` returns the simulator unchanged. -/
theorem step_of_not_running (sim : Simulation) (dt : ℚ)
    (hr : sim.running = false) : sim.step dt = sim := by
  simp [Simulation.step, hr]

/-- The equivalent temperature when the effective heat capacity is below the
epsilon guard. -/
theorem system_temperature_equivalent_of_small (s : SystemState)
    (h : |s.mass_ice * CP_ICE + s.mass_water * CP_WATER| < CEFF_EPS) :
    s.system_temperature_equivalent = 0 := by
  unfold SystemState.system_temperature_equivalent
  dsimp only
  rw [if_pos h]

/-- The equivalent temperature when the effective heat capacity is at least
the epsilon guard. -/
theorem system_temperature_equivalent_of_large (s : SystemState)
    (h : ¬ |s.mass_ice * CP_ICE + s.mass_water * CP_WATER| < CEFF_EPS) :
    s.system_temperature_equivalent =
      (s.mass_ice * CP_ICE * s.temp_ice + s.mass_water * CP_WATER * s.temp_water)
        / (s.mass_ice * CP_ICE + s.mass_water * CP_WATER) := by
  unfold SystemState.system_temperature_equivalent
  dsimp only
  rw [if_neg h]

/-- States satisfying the full validity predicate are untouched by the final
clamp. -/
theorem clampTemps_eq_self_of_valid (s : SystemState) (hv : validState s) :
    clampTemps s = s := by
  obtain ⟨hmw, hmi, hma, h1, h2, h3, h4⟩ := hv
  exact clampTemps_eq_self s h1
    (fun h => h2 (le_antisymm (not_lt.mp h) hmi)) h3
    (fun h => h4 (le_antisymm (not_lt.mp h) hmw))

/-! ### Claim theorems -/

/-- C4. Every `step` call conserves the total mass
`mass_water + mass_ice + mass_air`: air never exchanges mass, and the
melt/freeze transfers between ice and water are exactly balanced. -/
theorem step_mass_conserved (sim : Simulation) (dt : ℚ) :
    (sim.step dt).state.mass_water + (sim.step dt).state.mass_ice
        + (sim.step dt).state.mass_air
      = sim.state.mass_water + sim.state.mass_ice + sim.state.mass_air ∧
    (sim.step dt).state.mass_air = sim.state.mass_air := by
  by_cases hr : sim.running
  · rw [step_of_running sim dt hr]
    dsimp only
    rw [clampTemps_mass_water, clampTemps_mass_ice, clampTemps_mass_air]
    split_ifs with h1 h2
    · have hs := heating_mass_sum sim.state (sim.heat_q dt)
      have ha := heating_mass_air sim.state (sim.heat_q dt)
      exact ⟨by linarith, ha⟩
    · have hs := cooling_mass_sum sim.state (-sim.heat_q dt)
      have ha := cooling_mass_air sim.state (-sim.heat_q dt)
      exact ⟨by linarith, ha⟩
    · exact ⟨rfl, rfl⟩
  · rw [step_of_not_running sim dt (by simpa using hr)]
    exact ⟨rfl, rfl⟩

/-- C7. While running, `time_seconds` advances by exactly `dt * time_scale`
on every `step` call; while paused it is unchanged. -/
theorem step_time_advance (sim : Simulation) (dt : ℚ) :
    (sim.running = true →
      (sim.step dt).time_seconds = sim.time_seconds + dt * sim.time_scale) ∧
    (sim.running = false → (sim.step dt).time_seconds = sim.time_seconds) := by
  constructor <;> intro h <;> simp [Simulation.step, h]

/-- Witness for `step_time_advance` at concrete inputs. -/
theorem step_time_advance_witness :
    (Simulation.new.step 3).time_seconds = Simulation.new.time_seconds ∧
    (({ Simulation.new with running := true } : Simulation).step 3).time_seconds
      = ({ Simulation.new with running := true } : Simulation).time_seconds
        + 3 * ({ Simulation.new with running := true } : Simulation).time_scale :=
  ⟨(step_time_advance Simulation.new 3).2 rfl,
    (step_time_advance { Simulation.new with running := true } 3).1 rfl⟩

/-- C9. `reset_from_init` is idempotent: it only reads the `init_*` fields,
which it never writes, so a second call rebuilds the same simulator. -/
theorem reset_from_init_idempotent (sim : Simulation) :
    sim.reset_from_init.reset_from_init = sim.reset_from_init := rfl

/-- C5 (amended). `step` is a no-op whenever `running` is false, for any
`dt`: every field of the simulator is left unchanged. -/
theorem step_paused_noop (sim : Simulation) (dt : ℚ)
    (h : sim.running = false) : sim.step dt = sim := by
  simp [Simulation.step, h]

/-- Witness for `step_paused_noop` at concrete inputs. -/
theorem step_paused_noop_witness : Simulation.new.step 7 = Simulation.new :=
  step_paused_noop Simulation.new 7 rfl

/-- C5 (counterexample). The code has no `dt ≤ 0` guard: a running `step`
with `dt = -1` (so `dt * time_scale = -1 ≤ 0`) changes `time_seconds`,
refuting the claimed no-op. -/
theorem step_negative_dt_not_noop :
    ({ Simulation.new with running := true } : Simulation).running = true ∧
    (-1 : ℚ) * ({ Simulation.new with running := true } : Simulation).time_scale ≤ 0 ∧
    (({ Simulation.new with running := true } : Simulation).step (-1)).time_seconds
      ≠ ({ Simulation.new with running := true } : Simulation).time_seconds := by
  refine ⟨rfl, by norm_num [Simulation.new], ?_⟩
  norm_num [Simulation.step, Simulation.new]

/-- C3 (counterexample). Seeding with `init_system_temp = -5` and
`init_water = 1` leaves `temp_water = -5 < 0` with `mass_water = 1 > 0`:
the temperature invariants fail after `reset_from_init` for this choice of
the `init_*` fields. -/
theorem reset_from_init_invariant_violation :
    0 < ({ Simulation.new with init_water := 1, init_system_temp := -5 }
        : Simulation).reset_from_init.state.mass_water ∧
    ({ Simulation.new with init_water := 1, init_system_temp := -5 }
        : Simulation).reset_from_init.state.temp_water < 0 ∧
    ¬ tempInvariants ({ Simulation.new with init_water := 1, init_system_temp := -5 }
        : Simulation).reset_from_init.state := by
  refine ⟨by norm_num [Simulation.reset_from_init, Simulation.new],
    by norm_num [Simulation.reset_from_init, Simulation.new], ?_⟩
  intro h
  have := h.2.2.1 (by norm_num [Simulation.reset_from_init, Simulation.new])
  norm_num [Simulation.reset_from_init, Simulation.new] at this

/-- C3 (amended). The temperature invariants hold after every running `step`
call, and after seeding (`reset_from_init` or the apply-initial-conditions
block) whenever `init_system_temp ≥ 0` and, if `init_water = 0`, also
`init_system_temp = 0`; negative `init_system_temp` with water present
violates them. -/
theorem invariants_after_step_and_seed (sim : Simulation) (dt : ℚ) :
    (sim.running = true → tempInvariants (sim.step dt).state) ∧
    (0 ≤ sim.init_system_temp → (sim.init_water = 0 → sim.init_system_temp = 0) →
      tempInvariants sim.reset_from_init.state ∧
      tempInvariants sim.apply_initial_conditions.state) := by
  constructor
  · intro hr
    unfold Simulation.step
    rw [if_neg (by simp [hr])]
    exact tempInvariants_clampTemps _
  · intro hT h0
    have hmin : min sim.init_system_temp 0 = 0 := min_eq_right hT
    constructor <;>
      exact ⟨fun _ => by simp [Simulation.reset_from_init,
          Simulation.apply_initial_conditions, hmin],
        fun _ => by simp [Simulation.reset_from_init,
          Simulation.apply_initial_conditions, hmin],
        fun _ => hT, h0⟩

/-- Witness for `invariants_after_step_and_seed` at concrete inputs. -/
theorem invariants_after_step_and_seed_witness :
    tempInvariants (({ Simulation.new with running := true } : Simulation).step 1).state ∧
    tempInvariants Simulation.new.reset_from_init.state := by
  refine ⟨(invariants_after_step_and_seed { Simulation.new with running := true } 1).1 rfl, ?_⟩
  exact ((invariants_after_step_and_seed Simulation.new 1).2 (by norm_num [Simulation.new])
    (by norm_num [Simulation.new])).1

/-- C6. The equivalent system temperature is a pure function of the state:
for non-negative masses it equals the energy-weighted mean
`(mass_ice * CP_ICE * temp_ice + mass_water * CP_WATER * temp_water) /
(mass_ice * CP_ICE + mass_water * CP_WATER)`, except that it is exactly 0
when the denominator is below the tiny epsilon `CEFF_EPS`. -/
theorem system_temperature_equivalent_spec (s : SystemState)
    (hmi : 0 ≤ s.mass_ice) (hmw : 0 ≤ s.mass_water) :
    (s.mass_ice * CP_ICE + s.mass_water * CP_WATER < CEFF_EPS →
      s.system_temperature_equivalent = 0) ∧
    (CEFF_EPS ≤ s.mass_ice * CP_ICE + s.mass_water * CP_WATER →
      s.system_temperature_equivalent =
        (s.mass_ice * CP_ICE * s.temp_ice + s.mass_water * CP_WATER * s.temp_water)
          / (s.mass_ice * CP_ICE + s.mass_water * CP_WATER)) := by
  have hc : 0 ≤ s.mass_ice * CP_ICE + s.mass_water * CP_WATER := by
    have ha : (0:ℚ) ≤ s.mass_ice * CP_ICE := mul_nonneg hmi (by norm_num [CP_ICE])
    have hb : (0:ℚ) ≤ s.mass_water * CP_WATER := mul_nonneg hmw (by norm_num [CP_WATER])
    linarith
  constructor
  · intro h
    exact system_temperature_equivalent_of_small s (by rwa [abs_of_nonneg hc])
  · intro h
    exact system_temperature_equivalent_of_large s
      (by rw [abs_of_nonneg hc]; exact not_lt.mpr h)

/-- Witness for `system_temperature_equivalent_spec` at a concrete state. -/
theorem system_temperature_equivalent_spec_witness :
    SystemState.system_temperature_equivalent ⟨1, 1, 0, 2, -3⟩
      = ((1:ℚ) * CP_ICE * (-3) + 1 * CP_WATER * 2) / (1 * CP_ICE + 1 * CP_WATER) :=
  (system_temperature_equivalent_spec ⟨1, 1, 0, 2, -3⟩ (by norm_num)
    (by norm_num)).2 (by norm_num [CEFF_EPS, CP_ICE, CP_WATER])

/-- Concrete equilibrium simulator used for the `step_equilibrium` witness. -/
def equilibriumSim : Simulation :=
  { state := ⟨0, 0, 0, 0, 0⟩
    outside_temp := 0
    time_seconds := 0
    running := true
    time_scale := 1
    init_water := 0, init_ice := 0, init_air := 0
    init_system_temp := 0, init_outside_temp := 0 }

/-- C8. In equilibrium (`outside_temp` equals the equivalent system
temperature) a running `step` computes `q = 0` and changes nothing but
`time_seconds`, for every valid state. -/
theorem step_equilibrium (sim : Simulation) (dt : ℚ)
    (hr : sim.running = true) (hv : validState sim.state)
    (heq : sim.outside_temp = sim.state.system_temperature_equivalent) :
    sim.heat_q dt = 0 ∧
    sim.step dt = { sim with time_seconds := sim.time_seconds + dt * sim.time_scale } := by
  have hq : sim.heat_q dt = 0 := by
    unfold Simulation.heat_q
    rw [heq]
    ring
  refine ⟨hq, ?_⟩
  rw [step_of_running sim dt hr, hq]
  simp only [lt_irrefl, if_false, neg_zero]
  rw [clampTemps_eq_self_of_valid sim.state hv]

/-- Witness for `step_equilibrium` at a concrete simulator. -/
theorem step_equilibrium_witness :
    equilibriumSim.heat_q 2 = 0 ∧
    equilibriumSim.step 2 =
      { equilibriumSim with
        time_seconds := equilibriumSim.time_seconds + 2 * equilibriumSim.time_scale } :=
  step_equilibrium equilibriumSim 2 rfl
    (by norm_num [validState, tempInvariants, equilibriumSim])
    (by norm_num [equilibriumSim, SystemState.system_temperature_equivalent, CEFF_EPS])

/-- Melting moves a non-negative mass out of the ice. -/
theorem meltIce_mass_ice_le (s : SystemState) (q : ℚ) :
    (meltIce s q).1.mass_ice ≤ s.mass_ice := by
  unfold meltIce
  dsimp only
  split_ifs with h
  · have hm : 0 ≤ min (q / LATENT_FUSION) s.mass_ice :=
      le_min (div_nonneg h.1.le (by norm_num [LATENT_FUSION])) h.2.le
    dsimp only
    linarith
  · exact le_refl _

/-- Melting moves a non-negative mass into the water. -/
theorem meltIce_mass_water_ge (s : SystemState) (q : ℚ) :
    s.mass_water ≤ (meltIce s q).1.mass_water := by
  unfold meltIce
  dsimp only
  split_ifs with h
  · have hm : 0 ≤ min (q / LATENT_FUSION) s.mass_ice :=
      le_min (div_nonneg h.1.le (by norm_num [LATENT_FUSION])) h.2.le
    dsimp only
    linarith
  · exact le_refl _

/-- Freezing moves a non-negative mass out of the water. -/
theorem freezeWater_mass_water_le (s : SystemState) (q : ℚ) :
    (freezeWater s q).1.mass_water ≤ s.mass_water := by
  unfold freezeWater
  dsimp only
  split_ifs with h
  · have hm : 0 ≤ min (q / LATENT_FUSION) s.mass_water :=
      le_min (div_nonneg h.1.le (by norm_num [LATENT_FUSION])) h.2.1.le
    dsimp only
    linarith
  · exact le_refl _

/-- Freezing moves a non-negative mass into the ice. -/
theorem freezeWater_mass_ice_ge (s : SystemState) (q : ℚ) :
    s.mass_ice ≤ (freezeWater s q).1.mass_ice := by
  unfold freezeWater
  dsimp only
  split_ifs with h
  · have hm : 0 ≤ min (q / LATENT_FUSION) s.mass_water :=
      le_min (div_nonneg h.1.le (by norm_num [LATENT_FUSION])) h.2.1.le
    dsimp only
    linarith
  · exact le_refl _

theorem heating_mass_water_ge (s : SystemState) (q : ℚ) :
    s.mass_water ≤ (heating s q).mass_water := by
  unfold heating
  dsimp only
  rw [heatWater_mass_water]
  have h := meltIce_mass_water_ge (warmIce s q).1 (warmIce s q).2
  rwa [warmIce_mass_water] at h

theorem heating_mass_ice_le (s : SystemState) (q : ℚ) :
    (heating s q).mass_ice ≤ s.mass_ice := by
  unfold heating
  dsimp only
  rw [heatWater_mass_ice]
  have h := meltIce_mass_ice_le (warmIce s q).1 (warmIce s q).2
  rwa [warmIce_mass_ice] at h

theorem cooling_mass_water_le (s : SystemState) (q : ℚ) :
    (cooling s q).mass_water ≤ s.mass_water := by
  unfold cooling
  dsimp only
  rw [coolIce_mass_water]
  have h := freezeWater_mass_water_le (coolWater s q).1 (coolWater s q).2
  rwa [coolWater_mass_water] at h

theorem cooling_mass_ice_ge (s : SystemState) (q : ℚ) :
    s.mass_ice ≤ (cooling s q).mass_ice := by
  unfold cooling
  dsimp only
  rw [coolIce_mass_ice]
  have h := freezeWater_mass_ice_ge (coolWater s q).1 (coolWater s q).2
  rwa [coolWater_mass_ice] at h

/-- Concrete running simulator used for the phase-direction witness. -/
def phaseSim : Simulation :=
  { state := ⟨0, 0, 0, 0, 0⟩
    outside_temp := 10
    time_seconds := 0
    running := true
    time_scale := 1
    init_water := 0, init_ice := 0, init_air := 0
    init_system_temp := 0, init_outside_temp := 0 }

/-- C10. In one `step` call phase change goes in at most one direction,
fixed by the sign of the heat `q`: with `q > 0` water never decreases and
ice never increases, with `q < 0` ice never decreases and water never
increases, and with `q = 0` both masses are unchanged. -/
theorem step_phase_direction (sim : Simulation) (dt : ℚ)
    (hr : sim.running = true) :
    (0 < sim.heat_q dt →
      sim.state.mass_water ≤ (sim.step dt).state.mass_water ∧
      (sim.step dt).state.mass_ice ≤ sim.state.mass_ice) ∧
    (sim.heat_q dt < 0 →
      sim.state.mass_ice ≤ (sim.step dt).state.mass_ice ∧
      (sim.step dt).state.mass_water ≤ sim.state.mass_water) ∧
    (sim.heat_q dt = 0 →
      (sim.step dt).state.mass_water = sim.state.mass_water ∧
      (sim.step dt).state.mass_ice = sim.state.mass_ice) := by
  rw [step_of_running sim dt hr]
  dsimp only
  rw [clampTemps_mass_water, clampTemps_mass_ice]
  refine ⟨fun h => ?_, fun h => ?_, fun h => ?_⟩
  · rw [if_pos h]
    exact ⟨heating_mass_water_ge _ _, heating_mass_ice_le _ _⟩
  · rw [if_neg (by linarith), if_pos h]
    exact ⟨cooling_mass_ice_ge _ _, cooling_mass_water_le _ _⟩
  · rw [if_neg (by linarith), if_neg (by linarith)]
    exact ⟨rfl, rfl⟩

/-! ### Fine-grained stage lemmas for the heating ladder -/

theorem warmIce_of_not_pos_ice (s : SystemState) (q : ℚ)
    (hm : ¬ 0 < s.mass_ice) : warmIce s q = (s, q) := by
  unfold warmIce
  exact if_neg (fun hh => hm hh.1)

theorem meltIce_of_not_pos_q (s : SystemState) (q : ℚ)
    (hq : ¬ 0 < q) : meltIce s q = (s, q) := by
  unfold meltIce
  exact if_neg (fun hh => hq hh.1)

theorem heatWater_of_not_pos_water (s : SystemState) (q : ℚ)
    (hm : ¬ 0 < s.mass_water) : heatWater s q = s := by
  unfold heatWater
  exact if_neg (fun hh => hm hh.2)

/-- Stage 1 never leaves the ice warmer than 0 °C (starting from a state
with the ice-temperature invariants). -/
theorem warmIce_temp_ice_nonpos (s : SystemState) (q : ℚ)
    (hmi : 0 ≤ s.mass_ice) (h1 : 0 < s.mass_ice → s.temp_ice ≤ 0)
    (h2 : s.mass_ice = 0 → s.temp_ice = 0) :
    (warmIce s q).1.temp_ice ≤ 0 := by
  unfold warmIce
  dsimp only
  split_ifs with hg hn <;> dsimp only
  · exact le_refl 0
  · have hpos : 0 < s.mass_ice * CP_ICE := mul_pos hg.1 (by norm_num [CP_ICE])
    have hlt : q / (s.mass_ice * CP_ICE) < 0 - s.temp_ice := by
      rw [div_lt_iff₀ hpos]
      have hq := not_le.mp hn
      nlinarith [hq]
    linarith
  · by_cases hm : 0 < s.mass_ice
    · exact h1 hm
    · rw [h2 (le_antisymm (not_lt.mp hm) hmi)]

/-- Stage 1 never makes the remaining heat negative. -/
theorem warmIce_q_nonneg (s : SystemState) (q : ℚ) (hq : 0 ≤ q) :
    0 ≤ (warmIce s q).2 := by
  unfold warmIce
  dsimp only
  split_ifs with hg hn <;> dsimp only
  · linarith
  · exact le_refl 0
  · exact hq

/-- If heat remains after stage 1, the ice is at 0 °C or absent. -/
theorem warmIce_q_pos_cases (s : SystemState) (q : ℚ)
    (hmi : 0 ≤ s.mass_ice) (h1 : 0 < s.mass_ice → s.temp_ice ≤ 0)
    (hq' : 0 < (warmIce s q).2) :
    (warmIce s q).1.temp_ice = 0 ∨ (warmIce s q).1.mass_ice = 0 := by
  unfold warmIce at hq' ⊢
  dsimp only at hq' ⊢
  split_ifs at hq' ⊢ with hg hn <;> dsimp only at hq' ⊢
  · exact Or.inl rfl
  · exact absurd hq' (lt_irrefl 0)
  · by_cases hm : 0 < s.mass_ice
    · have hti : ¬ s.temp_ice < 0 := fun hlt => hg ⟨hm, hlt⟩
      exact Or.inl (le_antisymm (h1 hm) (not_lt.mp hti))
    · exact Or.inr (le_antisymm (not_lt.mp hm) hmi)

/-- Stage 2 never makes the remaining heat negative. -/
theorem meltIce_q_nonneg (s : SystemState) (q : ℚ) (hq : 0 ≤ q) :
    0 ≤ (meltIce s q).2 := by
  unfold meltIce
  dsimp only
  split_ifs with hg <;> dsimp only
  · have hL : (0:ℚ) < LATENT_FUSION := by norm_num [LATENT_FUSION]
    have h1 : min (q / LATENT_FUSION) s.mass_ice ≤ q / LATENT_FUSION :=
      min_le_left _ _
    have h2 : min (q / LATENT_FUSION) s.mass_ice * LATENT_FUSION
        ≤ q / LATENT_FUSION * LATENT_FUSION :=
      mul_le_mul_of_nonneg_right h1 hL.le
    rw [div_mul_cancel₀ q (ne_of_gt hL)] at h2
    linarith
  · exact hq

/-- Stage 2 never drives the ice mass negative. -/
theorem meltIce_mass_ice_nonneg (s : SystemState) (q : ℚ)
    (hmi : 0 ≤ s.mass_ice) : 0 ≤ (meltIce s q).1.mass_ice := by
  unfold meltIce
  dsimp only
  split_ifs with hg <;> dsimp only
  · have := min_le_right (q / LATENT_FUSION) s.mass_ice
    linarith
  · exact hmi

/-- If heat remains after stage 2, all the ice has melted. -/
theorem meltIce_q_pos_no_ice (s : SystemState) (q : ℚ)
    (hmi : 0 ≤ s.mass_ice) (hq' : 0 < (meltIce s q).2) :
    (meltIce s q).1.mass_ice = 0 := by
  unfold meltIce at hq' ⊢
  dsimp only at hq' ⊢
  split_ifs at hq' ⊢ with hg <;> dsimp only at hq' ⊢
  · have hL : (0:ℚ) < LATENT_FUSION := by norm_num [LATENT_FUSION]
    rcases le_total (q / LATENT_FUSION) s.mass_ice with hle | hle
    · rw [min_eq_left hle, div_mul_cancel₀ q (ne_of_gt hL)] at hq'
      linarith
    · rw [min_eq_right hle]
      exact sub_self _
  · have hm : ¬ 0 < s.mass_ice := fun hm => hg ⟨hq', hm⟩
    exact le_antisymm (not_lt.mp hm) hmi

/-- Stage 3 keeps a non-negative water temperature non-negative. -/
theorem heatWater_temp_water_nonneg (s : SystemState) (q : ℚ)
    (hq : 0 ≤ q) (ht : 0 ≤ s.temp_water) :
    0 ≤ (heatWater s q).temp_water := by
  unfold heatWater
  split_ifs with hg
  · dsimp only
    have hc : 0 ≤ q / (s.mass_water * CP_WATER) :=
      div_nonneg hq (mul_nonneg hg.2.le (by norm_num [CP_WATER]))
    linarith
  · exact ht

/-- On a valid state, a positive heating budget is absorbed without ever
breaking the temperature invariants, so the final clamp of `step` is the
identity on the result of the heating ladder. -/
theorem heating_valid_clamp (s : SystemState) (q : ℚ)
    (hv : validState s) (hq : 0 < q) :
    clampTemps (heating s q) = heating s q := by
  obtain ⟨hmw, hmi, hma, h1, h2, h3, h4⟩ := hv
  have htw0 : 0 ≤ s.temp_water := by
    by_cases h : 0 < s.mass_water
    · exact h3 h
    · rw [h4 (le_antisymm (not_lt.mp h) hmw)]
  have W_mw := warmIce_mass_water s q
  have W_mi := warmIce_mass_ice s q
  have W_tw := warmIce_temp_water s q
  have W_q : 0 ≤ (warmIce s q).2 := warmIce_q_nonneg s q hq.le
  have W_ti : (warmIce s q).1.temp_ice ≤ 0 :=
    warmIce_temp_ice_nonpos s q hmi h1 h2
  have W_cases := warmIce_q_pos_cases s q hmi h1
  have W_skip := warmIce_of_not_pos_ice s q
  rcases hW : warmIce s q with ⟨s1, q1⟩
  rw [hW] at W_mw W_mi W_tw W_q W_ti W_cases W_skip
  dsimp only at W_mw W_mi W_tw W_q W_ti W_cases
  have M_tw := meltIce_temp_water s1 q1
  have M_ti := meltIce_temp_ice s1 q1
  have M_q : 0 ≤ (meltIce s1 q1).2 := meltIce_q_nonneg s1 q1 W_q
  have M_mi : 0 ≤ (meltIce s1 q1).1.mass_ice :=
    meltIce_mass_ice_nonneg s1 q1 (by rw [W_mi]; exact hmi)
  have M_mwge := meltIce_mass_water_ge s1 q1
  have M_skip := meltIce_of_not_pos_q s1 q1
  rcases hM : meltIce s1 q1 with ⟨s2, q2⟩
  rw [hM] at M_tw M_ti M_q M_mi M_mwge M_skip
  dsimp only at M_tw M_ti M_q M_mi M_mwge
  have hfin : heating s q = heatWater s2 q2 := by
    unfold heating
    rw [hW]
    dsimp only
    rw [hM]
  rw [hfin]
  apply clampTemps_eq_self
  · intro _
    rw [heatWater_temp_ice, M_ti]
    exact W_ti
  · intro hni
    rw [heatWater_mass_ice] at hni
    have hz : s2.mass_ice = 0 := le_antisymm (not_lt.mp hni) M_mi
    rw [heatWater_temp_ice, M_ti]
    by_cases hm : 0 < s.mass_ice
    · by_cases hqq : 0 < q1
      · rcases W_cases hqq with h | h
        · exact h
        · rw [W_mi] at h
          exact absurd h (ne_of_gt hm)
      · exfalso
        have hsk := M_skip hqq
        injection hsk with hs2 hq2
        rw [hs2, W_mi] at hz
        exact ne_of_gt hm hz
    · have hsk := W_skip (fun hh => hm hh)
      injection hsk with hs1 hq1
      rw [hs1]
      exact h2 (le_antisymm (not_lt.mp hm) hmi)
  · intro _
    exact heatWater_temp_water_nonneg s2 q2 M_q (by rw [M_tw, W_tw]; exact htw0)
  · intro hnw
    rw [heatWater_mass_water] at hnw
    rw [heatWater_of_not_pos_water s2 q2 hnw, M_tw, W_tw]
    have hge : s.mass_water ≤ s2.mass_water := by
      rw [← W_mw]
      exact M_mwge
    have hle := not_lt.mp hnw
    exact h4 (le_antisymm (by linarith) hmw)

/-- C1. With `running` true and positive heat `q`, `step` applies energy in
the strict order warm-ice (stage `warmIce`), melt (stage `meltIce`), heat
water (stage `heatWater`): on a valid state the post-step state is exactly
the heating ladder's output. -/
theorem step_heating_ladder (sim : Simulation) (dt : ℚ)
    (hr : sim.running = true) (hv : validState sim.state)
    (hq : 0 < sim.heat_q dt) :
    (sim.step dt).state = heating sim.state (sim.heat_q dt) := by
  rw [step_of_running sim dt hr]
  dsimp only
  rw [if_pos hq]
  exact heating_valid_clamp sim.state (sim.heat_q dt) hv hq

/-! ### Fine-grained stage lemmas for the cooling ladder -/

theorem coolWater_of_not_guard (s : SystemState) (q : ℚ)
    (h : ¬ (0 < s.mass_water ∧ 0 < s.temp_water)) : coolWater s q = (s, q) := by
  unfold coolWater
  exact if_neg h

theorem coolIce_of_not_pos_ice (s : SystemState) (q : ℚ)
    (hm : ¬ 0 < s.mass_ice) : coolIce s q = s := by
  unfold coolIce
  exact if_neg (fun hh => hm hh.2)

/-- Cooling stage 2 either leaves the pair untouched or its whole guard
held. -/
theorem freezeWater_eq_or_guard (s : SystemState) (q : ℚ) :
    freezeWater s q = (s, q) ∨
    (0 < q ∧ 0 < s.mass_water ∧ |s.temp_water - 0| < FREEZE_TOL) := by
  unfold freezeWater
  split_ifs with h
  · exact Or.inr h
  · exact Or.inl rfl

/-- Cooling stage 1 keeps the water temperature non-negative (starting from
a state with the water-temperature invariants). -/
theorem coolWater_temp_water_nonneg (s : SystemState) (q : ℚ)
    (hmw : 0 ≤ s.mass_water) (h3 : 0 < s.mass_water → 0 ≤ s.temp_water)
    (h4 : s.mass_water = 0 → s.temp_water = 0) :
    0 ≤ (coolWater s q).1.temp_water := by
  unfold coolWater
  dsimp only
  split_ifs with hg <;> dsimp only
  · have hpos : 0 < s.mass_water * CP_WATER := mul_pos hg.1 (by norm_num [CP_WATER])
    have hmin : min (s.mass_water * CP_WATER * (s.temp_water - 0)) q
        ≤ s.mass_water * CP_WATER * (s.temp_water - 0) := min_le_left _ _
    have hdiv : min (s.mass_water * CP_WATER * (s.temp_water - 0)) q
          / (s.mass_water * CP_WATER)
        ≤ s.mass_water * CP_WATER * (s.temp_water - 0) / (s.mass_water * CP_WATER) :=
      div_le_div_of_nonneg_right hmin hpos.le
    rw [mul_div_cancel_left₀ _ (ne_of_gt hpos)] at hdiv
    linarith
  · by_cases h : 0 < s.mass_water
    · exact h3 h
    · rw [h4 (le_antisymm (not_lt.mp h) hmw)]

/-- Cooling stage 1 never makes the remaining heat deficit negative. -/
theorem coolWater_q_nonneg (s : SystemState) (q : ℚ) (hq : 0 ≤ q) :
    0 ≤ (coolWater s q).2 := by
  unfold coolWater
  dsimp only
  split_ifs with hg <;> dsimp only
  · have := min_le_right (s.mass_water * CP_WATER * (s.temp_water - 0)) q
    linarith
  · exact hq

/-- If a heat deficit remains after cooling stage 1, the water is exactly at
0 °C or absent. -/
theorem coolWater_q_pos_cases (s : SystemState) (q : ℚ)
    (hmw : 0 ≤ s.mass_water) (h3 : 0 < s.mass_water → 0 ≤ s.temp_water)
    (hq' : 0 < (coolWater s q).2) :
    (coolWater s q).1.temp_water = 0 ∨ (coolWater s q).1.mass_water = 0 := by
  unfold coolWater at hq' ⊢
  dsimp only at hq' ⊢
  split_ifs at hq' ⊢ with hg <;> dsimp only at hq' ⊢
  · have hpos : 0 < s.mass_water * CP_WATER := mul_pos hg.1 (by norm_num [CP_WATER])
    rcases le_total (s.mass_water * CP_WATER * (s.temp_water - 0)) q with hle | hle
    · left
      rw [min_eq_left hle, mul_div_cancel_left₀ _ (ne_of_gt hpos)]
      ring
    · exfalso
      rw [min_eq_right hle] at hq'
      linarith
  · by_cases h : 0 < s.mass_water
    · have ht : ¬ 0 < s.temp_water := fun hlt => hg ⟨h, hlt⟩
      exact Or.inl (le_antisymm (not_lt.mp ht) (h3 h))
    · exact Or.inr (le_antisymm (not_lt.mp h) hmw)

/-- Cooling stage 2 never makes the remaining heat deficit negative. -/
theorem freezeWater_q_nonneg (s : SystemState) (q : ℚ) (hq : 0 ≤ q) :
    0 ≤ (freezeWater s q).2 := by
  unfold freezeWater
  dsimp only
  split_ifs with hg <;> dsimp only
  · have hL : (0:ℚ) < LATENT_FUSION := by norm_num [LATENT_FUSION]
    have h1 : min (q / LATENT_FUSION) s.mass_water ≤ q / LATENT_FUSION :=
      min_le_left _ _
    have h2 : min (q / LATENT_FUSION) s.mass_water * LATENT_FUSION
        ≤ q / LATENT_FUSION * LATENT_FUSION :=
      mul_le_mul_of_nonneg_right h1 hL.le
    rw [div_mul_cancel₀ q (ne_of_gt hL)] at h2
    linarith
  · exact hq

/-- Cooling stage 2 never drives the water mass negative. -/
theorem freezeWater_mass_water_nonneg (s : SystemState) (q : ℚ)
    (hmw : 0 ≤ s.mass_water) : 0 ≤ (freezeWater s q).1.mass_water := by
  unfold freezeWater
  dsimp only
  split_ifs with hg <;> dsimp only
  · have := min_le_right (q / LATENT_FUSION) s.mass_water
    linarith
  · exact hmw

/-- Cooling stage 3 keeps a non-positive ice temperature non-positive. -/
theorem coolIce_temp_ice_nonpos (s : SystemState) (q : ℚ)
    (ht : s.temp_ice ≤ 0) : (coolIce s q).temp_ice ≤ 0 := by
  unfold coolIce
  split_ifs with hg
  · dsimp only
    have hc : 0 ≤ q / (s.mass_ice * CP_ICE) :=
      le_of_lt (div_pos hg.1 (mul_pos hg.2 (by norm_num [CP_ICE])))
    linarith
  · exact ht

/-- On a valid state, a positive cooling deficit is removed without ever
breaking the temperature invariants, so the final clamp of `step` is the
identity on the result of the cooling ladder. -/
theorem cooling_valid_clamp (s : SystemState) (q : ℚ)
    (hv : validState s) (hq : 0 < q) :
    clampTemps (cooling s q) = cooling s q := by
  obtain ⟨hmw, hmi, hma, h1, h2, h3, h4⟩ := hv
  have hti0 : s.temp_ice ≤ 0 := by
    by_cases h : 0 < s.mass_ice
    · exact h1 h
    · rw [h2 (le_antisymm (not_lt.mp h) hmi)]
  have C_mw := coolWater_mass_water s q
  have C_mi := coolWater_mass_ice s q
  have C_ti := coolWater_temp_ice s q
  have C_tw : 0 ≤ (coolWater s q).1.temp_water :=
    coolWater_temp_water_nonneg s q hmw h3 h4
  have C_q : 0 ≤ (coolWater s q).2 := coolWater_q_nonneg s q hq.le
  have C_cases := coolWater_q_pos_cases s q hmw h3
  have C_skip := coolWater_of_not_guard s q
  rcases hC : coolWater s q with ⟨s1, q1⟩
  rw [hC] at C_mw C_mi C_ti C_tw C_q C_cases C_skip
  dsimp only at C_mw C_mi C_ti C_tw C_q C_cases
  have F_tw := freezeWater_temp_water s1 q1
  have F_ti := freezeWater_temp_ice s1 q1
  have F_q : 0 ≤ (freezeWater s1 q1).2 := freezeWater_q_nonneg s1 q1 C_q
  have F_mw : 0 ≤ (freezeWater s1 q1).1.mass_water :=
    freezeWater_mass_water_nonneg s1 q1 (by rw [C_mw]; exact hmw)
  have F_mige := freezeWater_mass_ice_ge s1 q1
  have F_or := freezeWater_eq_or_guard s1 q1
  rcases hF : freezeWater s1 q1 with ⟨s2, q2⟩
  rw [hF] at F_tw F_ti F_q F_mw F_mige F_or
  dsimp only at F_tw F_ti F_q F_mw F_mige
  have hfin : cooling s q = coolIce s2 q2 := by
    unfold cooling
    rw [hC]
    dsimp only
    rw [hF]
  rw [hfin]
  have hti2 : s2.temp_ice ≤ 0 := by
    rw [F_ti, C_ti]
    exact hti0
  apply clampTemps_eq_self
  · intro _
    exact coolIce_temp_ice_nonpos s2 q2 hti2
  · intro hni
    rw [coolIce_mass_ice] at hni
    have hge : s.mass_ice ≤ s2.mass_ice := by
      rw [← C_mi]
      exact F_mige
    have hz : s.mass_ice = 0 := le_antisymm (by linarith [not_lt.mp hni]) hmi
    rw [coolIce_of_not_pos_ice s2 q2 hni, F_ti, C_ti]
    exact h2 hz
  · intro _
    rw [coolIce_temp_water, F_tw]
    exact C_tw
  · intro hnw
    rw [coolIce_mass_water] at hnw
    have hz : s2.mass_water = 0 := le_antisymm (not_lt.mp hnw) F_mw
    rw [coolIce_temp_water, F_tw]
    by_cases hm : 0 < s.mass_water
    · rcases F_or with heq | hguard
      · injection heq with hs2 hq2
        rw [hs2, C_mw] at hz
        exact absurd hz (ne_of_gt hm)
      · rcases C_cases hguard.1 with h | h
        · exact h
        · rw [C_mw] at h
          exact absurd h (ne_of_gt hm)
    · have hsk := C_skip (fun hh => hm hh.1)
      injection hsk with hs1 hq1
      rw [hs1]
      exact h4 (le_antisymm (not_lt.mp hm) hmw)

/-- C2. With `running` true and negative heat `q`, `step` removes energy in
the strict order cool-water (stage `coolWater`), freeze (stage
`freezeWater`), cool ice (stage `coolIce`), operating on `q_abs = -q`: on a
valid state the post-step state is exactly the cooling ladder's output. -/
theorem step_cooling_ladder (sim : Simulation) (dt : ℚ)
    (hr : sim.running = true) (hv : validState sim.state)
    (hq : sim.heat_q dt < 0) :
    (sim.step dt).state = cooling sim.state (-sim.heat_q dt) := by
  rw [step_of_running sim dt hr]
  dsimp only
  rw [if_neg (by linarith), if_pos hq]
  exact cooling_valid_clamp sim.state (-sim.heat_q dt) hv (by linarith)

/-- Concrete running simulator used for the cooling-ladder witness. -/
def coolLadderSim : Simulation :=
  { state := ⟨0, 0, 0, 0, 0⟩
    outside_temp := -10
    time_seconds := 0
    running := true
    time_scale := 1
    init_water := 0, init_ice := 0, init_air := 0
    init_system_temp := 0, init_outside_temp := 0 }

/-- Witness for `step_cooling_ladder` at a concrete simulator. -/
theorem step_cooling_ladder_witness :
    coolLadderSim.heat_q 1 < 0 ∧
    (coolLadderSim.step 1).state = cooling coolLadderSim.state (-coolLadderSim.heat_q 1) := by
  have hq : coolLadderSim.heat_q 1 < 0 := by
    norm_num [Simulation.heat_q, coolLadderSim, SystemState.system_temperature_equivalent,
      CEFF_EPS, U_EFFECTIVE, CP_ICE, CP_WATER]
  exact ⟨hq, step_cooling_ladder coolLadderSim 1 rfl
    (by norm_num [validState, tempInvariants, coolLadderSim]) hq⟩

/-- Concrete running simulator used for the heating-ladder witness. -/
def heatLadderSim : Simulation :=
  { state := ⟨0, 0, 0, 0, 0⟩
    outside_temp := 10
    time_seconds := 0
    running := true
    time_scale := 1
    init_water := 0, init_ice := 0, init_air := 0
    init_system_temp := 0, init_outside_temp := 0 }

/-- Witness for `step_heating_ladder` at a concrete simulator. -/
theorem step_heating_ladder_witness :
    0 < heatLadderSim.heat_q 1 ∧
    (heatLadderSim.step 1).state = heating heatLadderSim.state (heatLadderSim.heat_q 1) := by
  have hq : 0 < heatLadderSim.heat_q 1 := by
    norm_num [Simulation.heat_q, heatLadderSim, SystemState.system_temperature_equivalent,
      CEFF_EPS, U_EFFECTIVE, CP_ICE, CP_WATER]
  exact ⟨hq, step_heating_ladder heatLadderSim 1 rfl
    (by norm_num [validState, tempInvariants, heatLadderSim]) hq⟩

/-- Witness for `step_phase_direction` at a concrete simulator. -/
theorem step_phase_direction_witness :
    0 < phaseSim.heat_q 1 ∧
    phaseSim.state.mass_water ≤ (phaseSim.step 1).state.mass_water ∧
    (phaseSim.step 1).state.mass_ice ≤ phaseSim.state.mass_ice := by
  have hq : 0 < phaseSim.heat_q 1 := by
    norm_num [Simulation.heat_q, phaseSim, SystemState.system_temperature_equivalent,
      CEFF_EPS, U_EFFECTIVE, CP_ICE, CP_WATER]
  have h := (step_phase_direction phaseSim 1 rfl).1 hq
  exact ⟨hq, h.1, h.2⟩

end IceBottle
